import Mathlib

/-!
# freelancePlatform front end: received-proposals workflow

A shallow embedding of the three React components under `nssfrontend/src`:

* `ReceivedProposals/ReceivedProposals.js` : `fetchReceivedProposals`,
  `handleSelectFreelancer`, `handleConfirmSelection`;
* `LoginPage.js` : the `TasksList` component and its `fetchTasks`;
* `TaskForm.js` : `handleSubmit`.

Identifiers (task, proposal and user ids) are natural numbers, as the JSON
bodies deliver them.  A JavaScript object used as a map is a list of
key/value entries without duplicate keys; property keys are the ids themselves
(the number-to-string coercion of property keys is injective on them).  The
enumeration order of the keys is not part of any statement below.

An asynchronous handler is embedded as the list of effects it performs, in
program order: state-setter calls, HTTP requests handed to axios, alerts and
console messages.  The answers of the server are a parameter (`Api`).
-/

namespace FreelancePlatform

/-! ## Data model -/

/-- Task as delivered by `/rest/tasks/posted` and `/rest/tasks/{id}`. -/
structure Task where
  id : Nat
  title : String
  deriving DecidableEq, Repr

/-- User as delivered by `/rest/users/{id}`. -/
structure User where
  id : Nat
  username : String
  deriving DecidableEq, Repr

/-- Proposal as delivered by `/rest/proposals`. -/
structure Proposal where
  id : Nat
  taskId : Nat
  freelancerId : Nat
  deriving DecidableEq, Repr

/-- The object `{...proposal, taskTitle, freelancerUsername}`. -/
structure EnrichedProposal extends Proposal where
  taskTitle : String
  freelancerUsername : String
  deriving DecidableEq, Repr

/-! ## JavaScript objects used as maps -/

/-- Property write `acc[k] = v` on the entry list: an existing key keeps its
place and takes the new value, a new key is added at the end. -/
def setEntry {V : Type} : List (Nat × V) → Nat → V → List (Nat × V)
  | [], k, v => [(k, v)]
  | (k0, v0) :: rest, k, v =>
    if k0 = k then (k, v) :: rest else (k0, v0) :: setEntry rest k v

/-- Property read `obj[k]` on the entry list; `none` is `undefined`. -/
def getEntry {V : Type} : List (Nat × V) → Nat → Option V
  | [], _ => none
  | (k0, v0) :: rest, k => if k0 = k then some v0 else getEntry rest k

theorem setEntry_keys {V : Type} (l : List (Nat × V)) (k : Nat) (v : V) (x : Nat) :
    x ∈ (setEntry l k v).map Prod.fst ↔ x = k ∨ x ∈ l.map Prod.fst := by
  induction l with
  | nil => simp [setEntry]
  | cons hd tl ih =>
    obtain ⟨k0, v0⟩ := hd
    by_cases h : k0 = k
    · subst h
      simp [setEntry]
    · simp only [setEntry, if_neg h, List.map_cons, List.mem_cons, ih]
      tauto

theorem setEntry_nodup {V : Type} (l : List (Nat × V)) (k : Nat) (v : V)
    (h : (l.map Prod.fst).Nodup) : ((setEntry l k v).map Prod.fst).Nodup := by
  induction l with
  | nil => simp [setEntry]
  | cons hd tl ih =>
    obtain ⟨k0, v0⟩ := hd
    simp only [List.map_cons, List.nodup_cons] at h
    by_cases hk : k0 = k
    · subst hk
      simp only [setEntry, if_true, List.map_cons, List.nodup_cons]
      exact h
    · simp only [setEntry, if_neg hk, List.map_cons, List.nodup_cons]
      refine ⟨?_, ih h.2⟩
      intro hmem
      rcases (setEntry_keys tl k v k0).1 hmem with h1 | h1
      · exact hk h1
      · exact h.1 h1

/-- A JavaScript object whose own properties are keyed by ids. -/
structure JsObj (V : Type) where
  entries : List (Nat × V)
  nodup : (entries.map Prod.fst).Nodup

namespace JsObj

variable {V : Type}

theorem ext_entries {a b : JsObj V} (h : a.entries = b.entries) : a = b := by
  cases a
  cases b
  cases h
  rfl

instance [DecidableEq V] : DecidableEq (JsObj V) := fun a b =>
  if h : a.entries = b.entries then isTrue (ext_entries h)
  else isFalse (fun e => h (congrArg JsObj.entries e))

/-- The literal `{}` (also the initial `[]` of `proposals`, which has no own
enumerable keys either). -/
def empty : JsObj V := ⟨[], List.nodup_nil⟩

/-- Property read `obj[k]`. -/
def get (o : JsObj V) (k : Nat) : Option V := getEntry o.entries k

/-- Property write `obj[k] = v`, also the spread `{...obj, [k]: v}`. -/
def set (o : JsObj V) (k : Nat) (v : V) : JsObj V :=
  ⟨setEntry o.entries k v, setEntry_nodup o.entries k v o.nodup⟩

/-- The list `Object.keys(obj)`, up to order. -/
def keys (o : JsObj V) : List Nat := o.entries.map Prod.fst

end JsObj

/-! ## Cookies, requests and answers -/

/-- The cookies read with `Cookies.get`; `none` is `undefined`. -/
structure Cookies where
  authToken : Option String
  username : Option String
  email : Option String
  deriving DecidableEq, Repr

/-- JavaScript truthiness of a cookie value: `undefined` and the empty
string are falsy. -/
def truthyString : Option String → Bool
  | none => false
  | some s => !s.isEmpty

/-- JavaScript truthiness of `selectedProposal[taskId]`: `undefined` and the
number `0` are falsy. -/
def truthyId : Option Nat → Bool
  | none => false
  | some n => n != 0

/-- The body posted by `TaskForm`. -/
structure TaskData where
  username : Option String
  email : Option String
  title : String
  problem : String
  deadline : String
  taskStatus : String
  payment : String
  type : String
  deriving DecidableEq, Repr

/-- HTTP method of a request. -/
inductive Method where
  | GET
  | POST
  deriving DecidableEq, Repr

/-- Resource addressed by a request, below `http://localhost:8080/rest`,
with its query parameters or body. -/
inductive Resource where
  /-- Path `/tasks` with `params: { createdBy }`. -/
  | tasks (createdBy : Option String)
  /-- Path `/tasks` with a task body. -/
  | newTask (data : TaskData)
  /-- Path `/tasks/posted` with `params: { expired: false }`. -/
  | tasksPosted
  /-- Path `/tasks/${id}`. -/
  | task (id : Nat)
  /-- Path `/proposals`. -/
  | proposals
  /-- Path `/users/${id}`. -/
  | user (id : Nat)
  /-- Path `/tasks/posted/${taskId}/proposals/${proposalId}`. -/
  | assignment (taskId proposalId : Nat)
  deriving DecidableEq, Repr

/-- One call of `axios.get` or `axios.post`, with the `Authorization`
header it carries (`none` when the header value is `undefined`). -/
structure Request where
  method : Method
  resource : Resource
  authorization : Option String
  deriving DecidableEq, Repr

/-- Settlement of an axios promise: fulfilled with a response (its status
and data) or rejected with an error (its message). -/
inductive Answer (α : Type) where
  | resolved (status : Nat) (data : α)
  | rejected (message : String)
  deriving DecidableEq, Repr

/-- The answers of the server to the requests the components send. -/
structure Api where
  tasks : Answer (List Task)
  createTask : Answer Unit
  postedTasks : Answer (List Task)
  proposals : Answer (List Proposal)
  task : Nat → Answer Task
  user : Nat → Answer User
  assign : Nat → Nat → Answer Unit

/-! ## The `ReceivedProposals` component -/

/-- The three `useState` cells of `ReceivedProposals`. -/
structure RPState where
  proposals : JsObj (List EnrichedProposal)
  selectedProposal : JsObj Nat
  loading : Bool
  deriving DecidableEq

/-- State on mount: `useState([])`, `useState({})`, `useState(false)`. -/
def RPState.initial : RPState :=
  { proposals := JsObj.empty, selectedProposal := JsObj.empty, loading := false }

/-- `handleSelectFreelancer`:
`setSelectedProposal(prev => ({...prev, [taskId]: proposalId}))`. -/
def handleSelectFreelancer (st : RPState) (taskId proposalId : Nat) : RPState :=
  { st with selectedProposal := st.selectedProposal.set taskId proposalId }

/-- Text shown by `alert` in `handleConfirmSelection`. -/
inductive Alert where
  /-- The text "Please select a proposal before confirming." -/
  | selectFirst
  /-- The text "Proposal ID ${proposalId} successfully assigned to task ID
  ${taskId}." -/
  | assigned (proposalId taskId : Nat)
  /-- The text "Error assigning freelancer: ${error.message}". -/
  | assignError (message : String)
  deriving DecidableEq, Repr

/-- Effects of the handlers of `ReceivedProposals`. -/
inductive RPEffect where
  | setLoading (b : Bool)
  | setProposals (v : JsObj (List EnrichedProposal))
  | request (r : Request)
  | consoleError (label message : String)
  | alert (a : Alert)
  deriving DecidableEq

/-- State after one effect: only the two setters touch the state. -/
def RPState.step (st : RPState) : RPEffect → RPState
  | .setLoading b => { st with loading := b }
  | .setProposals v => { st with proposals := v }
  | _ => st

/-- State after a list of effects. -/
def RPState.run (st : RPState) (effects : List RPEffect) : RPState :=
  effects.foldl RPState.step st

/-- Requests handed to axios among the effects. -/
def requestsOf : List RPEffect → List Request
  | [] => []
  | .request r :: rest => r :: requestsOf rest
  | _ :: rest => requestsOf rest

/-- Values passed to `setProposals` among the effects. -/
def publishedOf : List RPEffect → List (JsObj (List EnrichedProposal))
  | [] => []
  | .setProposals v :: rest => v :: publishedOf rest
  | _ :: rest => publishedOf rest

/-- Messages passed to `console.error` among the effects. -/
def errorsOf : List RPEffect → List String
  | [] => []
  | .consoleError _ m :: rest => m :: errorsOf rest
  | _ :: rest => errorsOf rest

/-- Alerts among the effects. -/
def alertsOf : List RPEffect → List Alert
  | [] => []
  | .alert a :: rest => a :: alertsOf rest
  | _ :: rest => alertsOf rest

/-- The two requests the mapped async function starts for one proposal. -/
def detailRequests (authToken : Option String) (proposal : Proposal) : List RPEffect :=
  [ .request ⟨.GET, .task proposal.taskId, authToken⟩,
    .request ⟨.GET, .user proposal.freelancerId, authToken⟩ ]

/-- The mapped async function of `fetchReceivedProposals`: the inner
`Promise.all` of the task and the user lookup, then the enriched object.  A
rejected lookup rejects the whole. -/
def fetchDetails (api : Api) (proposal : Proposal) : Except String EnrichedProposal :=
  match api.task proposal.taskId, api.user proposal.freelancerId with
  | .resolved _ taskData, .resolved _ freelancerData =>
    .ok { toProposal := proposal
          taskTitle := taskData.title
          freelancerUsername := freelancerData.username }
  | .rejected m, _ => .error m
  | .resolved _ _, .rejected m => .error m

/-- The outer `Promise.all`: the enriched proposals in the order of the
input when every element fulfils, one rejection otherwise (the first in list
order stands for whichever settles first). -/
def promiseAll (api : Api) : List Proposal → Except String (List EnrichedProposal)
  | [] => .ok []
  | p :: rest =>
    match fetchDetails api p, promiseAll api rest with
    | .ok e, .ok es => .ok (e :: es)
    | .error m, _ => .error m
    | .ok _, .error m => .error m

/-- The reduce over `taskIds`:
`acc[taskId] = proposalsWithDetails.filter(p => p.taskId === taskId)`. -/
def groupByTask (taskIds : List Nat) (proposalsWithDetails : List EnrichedProposal) :
    JsObj (List EnrichedProposal) :=
  taskIds.foldl
    (fun acc taskId => acc.set taskId (proposalsWithDetails.filter (fun p => p.taskId == taskId)))
    JsObj.empty

/-- Label of the `console.error` in the catch of `fetchReceivedProposals`. -/
def fetchErrorLabel : String := "Error fetching received proposals:"

/-- The try block of `fetchReceivedProposals`, from the first `axios.get` to
`setProposals`, with the catch. -/
def fetchBody (authToken : Option String) (api : Api) : List RPEffect :=
  .request ⟨.GET, .tasksPosted, authToken⟩ ::
  match api.postedTasks with
  | .rejected m => [.consoleError fetchErrorLabel m]
  | .resolved _ tasks =>
    let taskIds := tasks.map (fun task => task.id)
    .request ⟨.GET, .proposals, authToken⟩ ::
    match api.proposals with
    | .rejected m => [.consoleError fetchErrorLabel m]
    | .resolved _ all =>
      let receivedProposals := all.filter (fun p => taskIds.contains p.taskId)
      (receivedProposals.map (detailRequests authToken)).flatten ++
      match promiseAll api receivedProposals with
      | .error m => [.consoleError fetchErrorLabel m]
      | .ok proposalsWithDetails => [.setProposals (groupByTask taskIds proposalsWithDetails)]

/-- `fetchReceivedProposals`: `setLoading(true)`, the try block, and
`setLoading(false)` in the finally. -/
def fetchReceivedProposals (cookies : Cookies) (api : Api) : List RPEffect :=
  .setLoading true :: (fetchBody cookies.authToken api ++ [.setLoading false])

/-- Label of the `console.error` in the catch of `handleConfirmSelection`. -/
def assignErrorLabel : String := "Error during freelancer assignment:"

/-- `handleConfirmSelection`. -/
def handleConfirmSelection (cookies : Cookies) (api : Api) (st : RPState) (taskId : Nat) :
    List RPEffect :=
  let authToken := cookies.authToken
  match st.selectedProposal.get taskId with
  | none => [.alert .selectFirst]
  | some proposalId =>
    if !truthyId (some proposalId) then [.alert .selectFirst]
    else
      .request ⟨.POST, .assignment taskId proposalId, authToken⟩ ::
      match api.assign taskId proposalId with
      | .resolved status _ =>
        if status = 204 then [.alert (.assigned proposalId taskId)]
        else [ .consoleError assignErrorLabel "Failed to assign freelancer",
               .alert (.assignError "Failed to assign freelancer") ]
      | .rejected m => [.consoleError assignErrorLabel m, .alert (.assignError m)]

/-! ## The `TasksList` component (`LoginPage.js`) -/

/-- The three `useState` cells of `TasksList`. -/
structure TLState where
  tasks : List Task
  loading : Bool
  error : Option String
  deriving DecidableEq

/-- Effects of `fetchTasks`. -/
inductive TLEffect where
  | setTasks (v : List Task)
  | setLoading (b : Bool)
  | setError (message : String)
  | request (r : Request)
  deriving DecidableEq

/-- Requests handed to axios among the effects of `fetchTasks`. -/
def tlRequestsOf : List TLEffect → List Request
  | [] => []
  | .request r :: rest => r :: tlRequestsOf rest
  | _ :: rest => tlRequestsOf rest

/-- `fetchTasks` of `TasksList`. -/
def fetchTasks (cookies : Cookies) (api : Api) : List TLEffect :=
  let authToken := cookies.authToken
  (if !truthyString authToken then [.setError "Unauthorized: Auth token is missing"]
   else
     .request ⟨.GET, .tasks cookies.username, authToken⟩ ::
     match api.tasks with
     | .resolved status data =>
       if status = 200 then [.setTasks data] else [.setError "Failed to fetch tasks"]
     | .rejected m => [.setError m]) ++
  [.setLoading false]

/-! ## The `TaskForm` component -/

/-- The form fields of `TaskForm`. -/
structure FormState where
  title : String
  problem : String
  deadline : String
  payment : String
  selectedType : String
  deriving DecidableEq

/-- Effects of `handleSubmit`. -/
inductive TFEffect where
  | request (r : Request)
  | alert (text : String)
  | resetForm
  | consoleLog (message : String)
  | consoleError (message : String)
  deriving DecidableEq

/-- Requests handed to axios among the effects of `handleSubmit`. -/
def tfRequestsOf : List TFEffect → List Request
  | [] => []
  | .request r :: rest => r :: tfRequestsOf rest
  | _ :: rest => tfRequestsOf rest

/-- `handleSubmit` of `TaskForm`.  The parameter `toISOString` stands for
`new Date(deadline).toISOString()`, which throws (here `none`) on an invalid
date, before the try block is entered. -/
def handleSubmit (cookies : Cookies) (toISOString : String → Option String) (api : Api)
    (form : FormState) : List TFEffect :=
  match toISOString form.deadline with
  | none => []
  | some deadline =>
    let taskData : TaskData :=
      { username := cookies.username
        email := cookies.email
        title := form.title
        problem := form.problem
        deadline := deadline
        taskStatus := "UNASSIGNED"
        payment := form.payment
        type := form.selectedType }
    .request ⟨.POST, .newTask taskData, cookies.authToken⟩ ::
    match api.createTask with
    | .resolved status _ =>
      if status = 200 ∨ status = 201 then [.alert "Task created successfully!", .resetForm]
      else [.alert "Failed to create task", .consoleLog "Failed to create task with status:"]
    | .rejected m => [.consoleError m, .alert "Error creating task. See console for details."]

/-! ## Outcome of a cycle, as the server's answers determine it -/

/-- The proposals `fetchReceivedProposals` keeps:
`proposalsResponse.data.filter(p => taskIds.includes(p.taskId))`. -/
def receivedOf (T : List Task) (P : List Proposal) : List Proposal :=
  P.filter (fun p => (T.map (fun task => task.id)).contains p.taskId)

/-- Some fetch of the cycle is rejected: the posted-tasks fetch, the proposals
fetch, or the task or user lookup of a proposal that passed the filter. -/
def FetchFails (api : Api) : Prop :=
  (∃ m, api.postedTasks = .rejected m) ∨
  ∃ s1 T, api.postedTasks = .resolved s1 T ∧
    ((∃ m, api.proposals = .rejected m) ∨
     ∃ s2 P, api.proposals = .resolved s2 P ∧
       ∃ p ∈ P, p.taskId ∈ T.map (fun task => task.id) ∧
         ((∃ m, api.task p.taskId = .rejected m) ∨
          (∃ m, api.user p.freelancerId = .rejected m)))

/-! ## Sample data -/

/-- Cookies of a logged-in user. -/
def sampleCookies : Cookies :=
  { authToken := some "token", username := some "client", email := some "client@example.org" }

/-- Cookies without `authToken`. -/
def noTokenCookies : Cookies :=
  { authToken := none, username := some "client", email := some "client@example.org" }

/-- A server for the scenario: one posted task, two proposals of which one is
for a task that was not posted by the user; every request succeeds. -/
def sampleApi : Api :=
  { tasks := .resolved 200 [⟨1, "Logo"⟩]
    createTask := .resolved 201 ()
    postedTasks := .resolved 200 [⟨1, "Logo"⟩]
    proposals := .resolved 200 [⟨10, 1, 99⟩, ⟨11, 2, 5⟩]
    task := fun id => .resolved 200 ⟨id, "Logo"⟩
    user := fun id => .resolved 200 ⟨id, "freelancer"⟩
    assign := fun _ _ => .resolved 204 () }

/-- The same server with the user lookup rejected. -/
def failingApi : Api :=
  { sampleApi with user := fun _ => .rejected "Request failed with status code 500" }

/-- The same server answering the assignment with a conflict, which axios
turns into a rejection. -/
def conflictApi : Api :=
  { sampleApi with assign := fun _ _ => .rejected "Request failed with status code 409" }

/-- The enriched proposal of the scenario. -/
def sampleEnriched : EnrichedProposal :=
  { id := 10, taskId := 1, freelancerId := 99, taskTitle := "Logo",
    freelancerUsername := "freelancer" }

/-- A state that holds a published result and no selection. -/
def priorState : RPState :=
  { proposals := JsObj.empty.set 1 [sampleEnriched]
    selectedProposal := JsObj.empty
    loading := false }

/-! ## Lemmas on objects -/

theorem getEntry_setEntry {V : Type} (l : List (Nat × V)) (k : Nat) (v : V) (x : Nat) :
    getEntry (setEntry l k v) x = if x = k then some v else getEntry l x := by
  induction l with
  | nil =>
    by_cases h : x = k
    · simp [setEntry, getEntry, h]
    · have h2 : ¬ k = x := fun e => h e.symm
      simp [setEntry, getEntry, h, h2]
  | cons hd tl ih =>
    obtain ⟨k0, v0⟩ := hd
    by_cases hk : k0 = k
    · subst hk
      by_cases hx : x = k0
      · subst hx
        simp [setEntry, getEntry]
      · have h2 : ¬ k0 = x := fun e => hx e.symm
        simp [setEntry, getEntry, hx, h2]
    · by_cases hx : x = k
      · subst hx
        simp [setEntry, getEntry, hk, ih]
      · simp only [setEntry, if_neg hk, getEntry, ih, if_neg hx]

theorem getEntry_eq_none {V : Type} (l : List (Nat × V)) (k : Nat) :
    getEntry l k = none ↔ k ∉ l.map Prod.fst := by
  induction l with
  | nil => simp [getEntry]
  | cons hd tl ih =>
    obtain ⟨k0, v0⟩ := hd
    by_cases hk : k0 = k
    · subst hk
      simp [getEntry]
    · have h2 : ¬ k = k0 := fun e => hk e.symm
      simp only [getEntry, if_neg hk, ih, List.map_cons, List.mem_cons, not_or]
      tauto

theorem setEntry_filter_ne {V : Type} (l : List (Nat × V)) (k : Nat) (v : V) :
    (setEntry l k v).filter (fun e => e.1 != k) = l.filter (fun e => e.1 != k) := by
  induction l with
  | nil => simp [setEntry]
  | cons hd tl ih =>
    obtain ⟨k0, v0⟩ := hd
    by_cases hk : k0 = k
    · subst hk
      simp [setEntry]
    · simp [setEntry, hk, ih]

theorem filter_eq_nil_of_not_key {V : Type} (l : List (Nat × V)) (k : Nat)
    (h : k ∉ l.map Prod.fst) : l.filter (fun e => e.1 == k) = [] := by
  induction l with
  | nil => rfl
  | cons hd tl ih =>
    obtain ⟨k0, v0⟩ := hd
    simp only [List.map_cons, List.mem_cons, not_or] at h
    have h2 : ¬ k0 = k := fun e => h.1 e.symm
    simp [h2, ih h.2]

theorem setEntry_filter_eq {V : Type} (l : List (Nat × V)) (k : Nat) (v : V)
    (h : (l.map Prod.fst).Nodup) :
    (setEntry l k v).filter (fun e => e.1 == k) = [(k, v)] := by
  induction l with
  | nil => simp [setEntry]
  | cons hd tl ih =>
    obtain ⟨k0, v0⟩ := hd
    simp only [List.map_cons, List.nodup_cons] at h
    by_cases hk : k0 = k
    · subst hk
      simp [setEntry, filter_eq_nil_of_not_key tl k0 h.1]
    · simp [setEntry, hk, ih h.2]

theorem setEntry_setEntry {V : Type} (l : List (Nat × V)) (k : Nat) (v w : V) :
    setEntry (setEntry l k v) k w = setEntry l k w := by
  induction l with
  | nil => simp [setEntry]
  | cons hd tl ih =>
    obtain ⟨k0, v0⟩ := hd
    by_cases hk : k0 = k
    · subst hk
      simp [setEntry]
    · simp [setEntry, hk, ih]

theorem JsObj.get_set {V : Type} (o : JsObj V) (k : Nat) (v : V) (x : Nat) :
    (o.set k v).get x = if x = k then some v else o.get x :=
  getEntry_setEntry o.entries k v x

theorem JsObj.set_set {V : Type} (o : JsObj V) (k : Nat) (v w : V) :
    (o.set k v).set k w = o.set k w :=
  JsObj.ext_entries (setEntry_setEntry o.entries k v w)

theorem JsObj.mem_keys_set {V : Type} (o : JsObj V) (k : Nat) (v : V) (x : Nat) :
    x ∈ (o.set k v).keys ↔ x = k ∨ x ∈ o.keys :=
  setEntry_keys o.entries k v x

theorem JsObj.get_eq_none {V : Type} (o : JsObj V) (k : Nat) :
    o.get k = none ↔ k ∉ o.keys :=
  getEntry_eq_none o.entries k

/-! ## Lemmas on effect lists -/

theorem requestsOf_append (a b : List RPEffect) :
    requestsOf (a ++ b) = requestsOf a ++ requestsOf b := by
  induction a with
  | nil => rfl
  | cons e tl ih => cases e <;> simp [requestsOf, ih]

theorem publishedOf_append (a b : List RPEffect) :
    publishedOf (a ++ b) = publishedOf a ++ publishedOf b := by
  induction a with
  | nil => rfl
  | cons e tl ih => cases e <;> simp [publishedOf, ih]

theorem errorsOf_append (a b : List RPEffect) :
    errorsOf (a ++ b) = errorsOf a ++ errorsOf b := by
  induction a with
  | nil => rfl
  | cons e tl ih => cases e <;> simp [errorsOf, ih]

theorem publishedOf_detailRequests (authToken : Option String) (l : List Proposal) :
    publishedOf (l.map (detailRequests authToken)).flatten = [] := by
  induction l with
  | nil => rfl
  | cons p tl ih => simp [detailRequests, publishedOf, ih]

theorem errorsOf_detailRequests (authToken : Option String) (l : List Proposal) :
    errorsOf (l.map (detailRequests authToken)).flatten = [] := by
  induction l with
  | nil => rfl
  | cons p tl ih => simp [detailRequests, errorsOf, ih]

theorem run_selectedProposal (effects : List RPEffect) (st : RPState) :
    (st.run effects).selectedProposal = st.selectedProposal := by
  induction effects generalizing st with
  | nil => rfl
  | cons e tl ih =>
    have h : (st.step e).selectedProposal = st.selectedProposal := by
      cases e <;> rfl
    simp only [RPState.run, List.foldl_cons] at ih ⊢
    rw [ih, h]

theorem run_proposals_of_not_published (effects : List RPEffect) (st : RPState)
    (h : publishedOf effects = []) : (st.run effects).proposals = st.proposals := by
  induction effects generalizing st with
  | nil => rfl
  | cons e tl ih =>
    simp only [RPState.run, List.foldl_cons] at ih ⊢
    cases e with
    | setProposals v => simp [publishedOf] at h
    | setLoading b => exact ih _ (by simpa [publishedOf] using h)
    | request r => exact ih _ (by simpa [publishedOf] using h)
    | consoleError l m => exact ih _ (by simpa [publishedOf] using h)
    | alert a => exact ih _ (by simpa [publishedOf] using h)

/-! ## Lemmas on the grouping -/

theorem foldl_set_get (ids : List Nat) (f : Nat → List EnrichedProposal)
    (acc : JsObj (List EnrichedProposal)) (k : Nat) :
    (ids.foldl (fun acc taskId => acc.set taskId (f taskId)) acc).get k =
      if k ∈ ids then some (f k) else acc.get k := by
  induction ids generalizing acc with
  | nil => simp
  | cons i tl ih =>
    simp only [List.foldl_cons, ih, JsObj.get_set, List.mem_cons]
    by_cases h1 : k ∈ tl
    · simp [h1]
    · by_cases h2 : k = i
      · simp [h2]
      · simp [h1, h2]

theorem foldl_set_keys (ids : List Nat) (f : Nat → List EnrichedProposal)
    (acc : JsObj (List EnrichedProposal)) (k : Nat) :
    k ∈ (ids.foldl (fun acc taskId => acc.set taskId (f taskId)) acc).keys ↔
      k ∈ ids ∨ k ∈ acc.keys := by
  induction ids generalizing acc with
  | nil => simp
  | cons i tl ih =>
    simp only [List.foldl_cons, ih, JsObj.mem_keys_set, List.mem_cons]
    tauto

theorem groupByTask_get (taskIds : List Nat) (es : List EnrichedProposal) (k : Nat) :
    (groupByTask taskIds es).get k =
      if k ∈ taskIds then some (es.filter (fun p => p.taskId == k)) else none := by
  unfold groupByTask
  rw [foldl_set_get taskIds (fun taskId => es.filter (fun p => p.taskId == taskId))]
  rfl

theorem groupByTask_keys (taskIds : List Nat) (es : List EnrichedProposal) (k : Nat) :
    k ∈ (groupByTask taskIds es).keys ↔ k ∈ taskIds := by
  unfold groupByTask
  rw [foldl_set_keys taskIds (fun taskId => es.filter (fun p => p.taskId == taskId))]
  simp [JsObj.empty, JsObj.keys]

theorem run_proposals_of_published (effects : List RPEffect) (st : RPState)
    (r : JsObj (List EnrichedProposal)) (h : publishedOf effects = [r]) :
    (st.run effects).proposals = r := by
  induction effects generalizing st with
  | nil => simp [publishedOf] at h
  | cons e tl ih =>
    cases e with
    | setProposals v =>
      simp only [publishedOf, List.cons.injEq] at h
      have h2 := run_proposals_of_not_published tl (st.step (.setProposals v)) h.2
      simp only [RPState.run, List.foldl_cons] at h2 ⊢
      rw [h2, ← h.1]
      rfl
    | setLoading b =>
      simp only [RPState.run, List.foldl_cons] at ih ⊢
      exact ih _ (by simpa [publishedOf] using h)
    | request q =>
      simp only [RPState.run, List.foldl_cons] at ih ⊢
      exact ih _ (by simpa [publishedOf] using h)
    | consoleError l m =>
      simp only [RPState.run, List.foldl_cons] at ih ⊢
      exact ih _ (by simpa [publishedOf] using h)
    | alert a =>
      simp only [RPState.run, List.foldl_cons] at ih ⊢
      exact ih _ (by simpa [publishedOf] using h)

/-! ## Lemmas on the detail fetches -/

theorem fetchDetails_ok (api : Api) (p : Proposal) (s1 s2 : Nat) (tk : Task) (u : User)
    (h1 : api.task p.taskId = .resolved s1 tk) (h2 : api.user p.freelancerId = .resolved s2 u) :
    fetchDetails api p =
      .ok { toProposal := p, taskTitle := tk.title, freelancerUsername := u.username } := by
  simp [fetchDetails, h1, h2]

theorem fetchDetails_error (api : Api) (p : Proposal)
    (h : (∃ m, api.task p.taskId = .rejected m) ∨ (∃ m, api.user p.freelancerId = .rejected m)) :
    ∃ m, fetchDetails api p = .error m := by
  rcases h with ⟨m, hm⟩ | ⟨m, hm⟩
  · exact ⟨m, by simp [fetchDetails, hm]⟩
  · cases ht : api.task p.taskId with
    | resolved s tk => exact ⟨m, by simp [fetchDetails, ht, hm]⟩
    | rejected m2 => exact ⟨m2, by simp [fetchDetails, ht]⟩

theorem promiseAll_ok (api : Api) (f : Proposal → EnrichedProposal) (l : List Proposal)
    (h : ∀ p ∈ l, fetchDetails api p = .ok (f p)) : promiseAll api l = .ok (l.map f) := by
  induction l with
  | nil => rfl
  | cons p tl ih =>
    have hp := h p (List.mem_cons_self p tl)
    have htl := ih (fun q hq => h q (List.mem_cons_of_mem p hq))
    simp [promiseAll, hp, htl]

theorem promiseAll_error (api : Api) (l : List Proposal)
    (h : ∃ p ∈ l, ∃ m, fetchDetails api p = .error m) : ∃ m, promiseAll api l = .error m := by
  induction l with
  | nil =>
    obtain ⟨p, hp, _⟩ := h
    cases hp
  | cons q tl ih =>
    cases hq : fetchDetails api q with
    | error m => exact ⟨m, by simp [promiseAll, hq]⟩
    | ok e =>
      have htl : ∃ m, promiseAll api tl = .error m := by
        apply ih
        obtain ⟨p, hp, m, hm⟩ := h
        rcases List.mem_cons.1 hp with hpq | hpt
        · subst hpq
          rw [hq] at hm
          cases hm
        · exact ⟨p, hpt, m, hm⟩
      obtain ⟨m, hm⟩ := htl
      exact ⟨m, by simp [promiseAll, hq, hm]⟩

/-! ## Outcome of a fetch cycle -/

theorem fetchBody_resolved (authToken : Option String) (api : Api) (s1 s2 : Nat)
    (T : List Task) (P : List Proposal)
    (hT : api.postedTasks = .resolved s1 T) (hP : api.proposals = .resolved s2 P) :
    fetchBody authToken api =
      .request ⟨.GET, .tasksPosted, authToken⟩ :: .request ⟨.GET, .proposals, authToken⟩ ::
        (((receivedOf T P).map (detailRequests authToken)).flatten ++
          match promiseAll api (receivedOf T P) with
          | .error m => [.consoleError fetchErrorLabel m]
          | .ok proposalsWithDetails =>
            [.setProposals (groupByTask (T.map (fun task => task.id)) proposalsWithDetails)]) := by
  simp only [fetchBody, hT, hP, receivedOf]

theorem fetch_published_ok (cookies : Cookies) (api : Api) (s1 s2 : Nat) (T : List Task)
    (P : List Proposal) (es : List EnrichedProposal)
    (hT : api.postedTasks = .resolved s1 T) (hP : api.proposals = .resolved s2 P)
    (hes : promiseAll api (receivedOf T P) = .ok es) :
    publishedOf (fetchReceivedProposals cookies api) =
        [groupByTask (T.map (fun task => task.id)) es] ∧
      errorsOf (fetchReceivedProposals cookies api) = [] := by
  rw [fetchReceivedProposals, fetchBody_resolved cookies.authToken api s1 s2 T P hT hP, hes]
  constructor
  · simp [publishedOf, publishedOf_append, publishedOf_detailRequests]
  · simp [errorsOf, errorsOf_append, errorsOf_detailRequests]

theorem fetch_published_error (cookies : Cookies) (api : Api) (s1 s2 : Nat) (T : List Task)
    (P : List Proposal) (m : String)
    (hT : api.postedTasks = .resolved s1 T) (hP : api.proposals = .resolved s2 P)
    (hes : promiseAll api (receivedOf T P) = .error m) :
    publishedOf (fetchReceivedProposals cookies api) = [] ∧
      errorsOf (fetchReceivedProposals cookies api) = [m] := by
  rw [fetchReceivedProposals, fetchBody_resolved cookies.authToken api s1 s2 T P hT hP, hes]
  constructor
  · simp [publishedOf, publishedOf_append, publishedOf_detailRequests]
  · simp [errorsOf, errorsOf_append, errorsOf_detailRequests]

theorem fetchDetails_toProposal (api : Api) (p : Proposal) (e : EnrichedProposal)
    (h : fetchDetails api p = .ok e) : e.toProposal = p := by
  unfold fetchDetails at h
  cases ht : api.task p.taskId with
  | rejected m => simp [ht] at h
  | resolved s tk =>
    cases hu : api.user p.freelancerId with
    | rejected m => simp [ht, hu] at h
    | resolved s2 u =>
      simp only [ht, hu, Except.ok.injEq] at h
      rw [← h]

theorem promiseAll_ok_exists (api : Api) (l : List Proposal)
    (h : ∀ p ∈ l, ∃ e, fetchDetails api p = .ok e) :
    ∃ es, promiseAll api l = .ok es ∧ es.map (fun e => e.toProposal) = l := by
  induction l with
  | nil => exact ⟨[], rfl, rfl⟩
  | cons p tl ih =>
    obtain ⟨e, he⟩ := h p (List.mem_cons_self p tl)
    obtain ⟨es, hes, hmap⟩ := ih (fun q hq => h q (List.mem_cons_of_mem p hq))
    refine ⟨e :: es, by simp [promiseAll, he, hes], ?_⟩
    simp [hmap, fetchDetails_toProposal api p e he]

theorem mem_receivedOf (T : List Task) (P : List Proposal) (p : Proposal) :
    p ∈ receivedOf T P ↔ p ∈ P ∧ p.taskId ∈ T.map (fun task => task.id) := by
  simp [receivedOf]

/-- The cycle either publishes one result and logs nothing, or publishes
nothing and logs one error. -/
theorem fetch_dichotomy (cookies : Cookies) (api : Api) :
    (∃ ids es, publishedOf (fetchReceivedProposals cookies api) = [groupByTask ids es] ∧
        errorsOf (fetchReceivedProposals cookies api) = []) ∨
      (∃ m, publishedOf (fetchReceivedProposals cookies api) = [] ∧
        errorsOf (fetchReceivedProposals cookies api) = [m]) := by
  cases hT : api.postedTasks with
  | rejected m =>
    right
    exact ⟨m, by simp [fetchReceivedProposals, fetchBody, hT, publishedOf],
      by simp [fetchReceivedProposals, fetchBody, hT, errorsOf]⟩
  | resolved s1 T =>
    cases hP : api.proposals with
    | rejected m =>
      right
      exact ⟨m, by simp [fetchReceivedProposals, fetchBody, hT, hP, publishedOf],
        by simp [fetchReceivedProposals, fetchBody, hT, hP, errorsOf]⟩
    | resolved s2 P =>
      cases hes : promiseAll api (receivedOf T P) with
      | error m => exact Or.inr ⟨m, fetch_published_error cookies api s1 s2 T P m hT hP hes⟩
      | ok es => exact Or.inl ⟨_, es, fetch_published_ok cookies api s1 s2 T P es hT hP hes⟩

theorem fetch_fails_published (cookies : Cookies) (api : Api) (h : FetchFails api) :
    publishedOf (fetchReceivedProposals cookies api) = [] ∧
      ∃ m, errorsOf (fetchReceivedProposals cookies api) = [m] := by
  rcases h with ⟨m, hT⟩ | ⟨s1, T, hT, h2⟩
  · exact ⟨by simp [fetchReceivedProposals, fetchBody, hT, publishedOf],
      m, by simp [fetchReceivedProposals, fetchBody, hT, errorsOf]⟩
  · rcases h2 with ⟨m, hP⟩ | ⟨s2, P, hP, p, hp, hid, hfail⟩
    · exact ⟨by simp [fetchReceivedProposals, fetchBody, hT, hP, publishedOf],
        m, by simp [fetchReceivedProposals, fetchBody, hT, hP, errorsOf]⟩
    · obtain ⟨m, hm⟩ := fetchDetails_error api p hfail
      obtain ⟨m2, hm2⟩ := promiseAll_error api (receivedOf T P)
        ⟨p, (mem_receivedOf T P p).2 ⟨hp, hid⟩, m, hm⟩
      have h3 := fetch_published_error cookies api s1 s2 T P m2 hT hP hm2
      exact ⟨h3.1, m2, h3.2⟩

/-! ## Aggregation: keys, lists and the grouping invariant -/

/-- C1: when the posted-tasks fetch, the proposals fetch and the lookups of
every proposal that passes the filter succeed, `fetchReceivedProposals`
publishes one object whose key set is exactly the set of ids of the posted
tasks; a posted task without a matching proposal is a key mapped to the empty
list. -/
theorem fetch_keys_eq_task_ids (cookies : Cookies) (api : Api) (st : RPState) (s1 s2 : Nat)
    (T : List Task) (P : List Proposal)
    (hT : api.postedTasks = .resolved s1 T) (hP : api.proposals = .resolved s2 P)
    (hD : ∀ p ∈ P, p.taskId ∈ T.map (fun task => task.id) →
      (∃ s tk, api.task p.taskId = .resolved s tk) ∧
      (∃ s u, api.user p.freelancerId = .resolved s u)) :
    ∃ r, publishedOf (fetchReceivedProposals cookies api) = [r] ∧
      (st.run (fetchReceivedProposals cookies api)).proposals = r ∧
      (∀ k, k ∈ r.keys ↔ ∃ t ∈ T, t.id = k) ∧
      (∀ t ∈ T, (∀ p ∈ P, p.taskId ≠ t.id) → r.get t.id = some []) := by
  have hall : ∀ p ∈ receivedOf T P, ∃ e, fetchDetails api p = .ok e := by
    intro p hp
    obtain ⟨hpP, hid⟩ := (mem_receivedOf T P p).1 hp
    obtain ⟨⟨s, tk, h1⟩, ⟨s3, u, h2⟩⟩ := hD p hpP hid
    exact ⟨_, fetchDetails_ok api p s s3 tk u h1 h2⟩
  obtain ⟨es, hes, hmap⟩ := promiseAll_ok_exists api (receivedOf T P) hall
  have hpub := (fetch_published_ok cookies api s1 s2 T P es hT hP hes).1
  refine ⟨_, hpub, run_proposals_of_published _ st _ hpub, ?_, ?_⟩
  · intro k
    rw [groupByTask_keys]
    simp
  · intro t ht hnone
    rw [groupByTask_get]
    have hmem : t.id ∈ T.map (fun task => task.id) := List.mem_map.2 ⟨t, ht, rfl⟩
    rw [if_pos hmem]
    congr 1
    rw [List.filter_eq_nil_iff]
    intro e he
    have h1 : e.toProposal ∈ receivedOf T P := by
      rw [← hmap]
      exact List.mem_map.2 ⟨e, he, rfl⟩
    have h2 := hnone e.toProposal ((mem_receivedOf T P _).1 h1).1
    simpa using h2

/-- Witness of C1 on the scenario, extended by a posted task 3 that has no
proposal: the keys are 1 and 3, and 3 is mapped to the empty list. -/
theorem fetch_keys_eq_task_ids_witness :
    ∃ r, publishedOf (fetchReceivedProposals sampleCookies
          { sampleApi with postedTasks := .resolved 200 [⟨1, "Logo"⟩, ⟨3, "Site"⟩] }) = [r] ∧
      (RPState.initial.run (fetchReceivedProposals sampleCookies
          { sampleApi with postedTasks := .resolved 200 [⟨1, "Logo"⟩, ⟨3, "Site"⟩] })).proposals
        = r ∧
      (∀ k, k ∈ r.keys ↔ ∃ t ∈ [(⟨1, "Logo"⟩ : Task), ⟨3, "Site"⟩], t.id = k) ∧
      (∀ t ∈ [(⟨1, "Logo"⟩ : Task), ⟨3, "Site"⟩],
        (∀ p ∈ [(⟨10, 1, 99⟩ : Proposal), ⟨11, 2, 5⟩], p.taskId ≠ t.id) →
          r.get t.id = some []) :=
  fetch_keys_eq_task_ids sampleCookies
    { sampleApi with postedTasks := .resolved 200 [⟨1, "Logo"⟩, ⟨3, "Site"⟩] }
    RPState.initial 200 200 [⟨1, "Logo"⟩, ⟨3, "Site"⟩] [⟨10, 1, 99⟩, ⟨11, 2, 5⟩] rfl rfl
    (fun _ _ _ => ⟨⟨200, _, rfl⟩, ⟨200, _, rfl⟩⟩)

/-- C2: when all fetches succeed, the list published under the id `k` of a
posted task is the sub-sequence of the proposals with `taskId` equal to `k`,
in their order, each with its own fields, the title the task lookup returned
and the username the user lookup returned; a proposal for a task that is not
posted is in no published list. -/
theorem fetch_lists_eq_filtered (cookies : Cookies) (api : Api) (s1 s2 : Nat)
    (T : List Task) (P : List Proposal) (tk : Nat → Task) (us : Nat → User)
    (hT : api.postedTasks = .resolved s1 T) (hP : api.proposals = .resolved s2 P)
    (hD : ∀ p ∈ P, p.taskId ∈ T.map (fun task => task.id) →
      (∃ s, api.task p.taskId = .resolved s (tk p.taskId)) ∧
      (∃ s, api.user p.freelancerId = .resolved s (us p.freelancerId))) :
    ∃ r, publishedOf (fetchReceivedProposals cookies api) = [r] ∧
      (∀ k ∈ T.map (fun task => task.id),
        r.get k = some ((P.filter (fun p => p.taskId == k)).map (fun p =>
          ({ toProposal := p, taskTitle := (tk p.taskId).title,
             freelancerUsername := (us p.freelancerId).username } : EnrichedProposal)))) ∧
      (∀ p ∈ P, p.taskId ∉ T.map (fun task => task.id) →
        ∀ k l, r.get k = some l → ∀ e ∈ l, e.toProposal ≠ p) := by
  have hall : ∀ p ∈ receivedOf T P, fetchDetails api p =
      .ok ({ toProposal := p, taskTitle := (tk p.taskId).title,
             freelancerUsername := (us p.freelancerId).username } : EnrichedProposal) := by
    intro p hp
    obtain ⟨hpP, hid⟩ := (mem_receivedOf T P p).1 hp
    obtain ⟨⟨s, h1⟩, ⟨s3, h2⟩⟩ := hD p hpP hid
    exact fetchDetails_ok api p s s3 _ _ h1 h2
  have hes := promiseAll_ok api _ (receivedOf T P) hall
  have hpub := (fetch_published_ok cookies api s1 s2 T P _ hT hP hes).1
  refine ⟨_, hpub, ?_, ?_⟩
  · intro k hk
    rw [groupByTask_get, if_pos hk]
    congr 1
    rw [List.filter_map, receivedOf, List.filter_filter]
    congr 1
    apply List.filter_congr
    intro p _
    by_cases hpk : p.taskId = k
    · subst hpk
      simpa using hk
    · simp [hpk]
  · intro p _ hnot k l hget e he heq
    rw [groupByTask_get] at hget
    by_cases hk : k ∈ T.map (fun task => task.id)
    · rw [if_pos hk] at hget
      simp only [Option.some.injEq] at hget
      rw [← hget] at he
      have h3 := (List.mem_filter.1 he).2
      have h4 : e.taskId = k := by simpa using h3
      apply hnot
      rw [← heq, h4]
      exact hk
    · rw [if_neg hk] at hget
      cases hget

/-- Witness of C2, the scenario of the specification: posted task 1, proposals
10 (task 1, freelancer 99) and 11 (task 2, freelancer 5). -/
theorem fetch_lists_eq_filtered_witness :
    ∃ r, publishedOf (fetchReceivedProposals sampleCookies sampleApi) = [r] ∧
      (∀ k ∈ [(⟨1, "Logo"⟩ : Task)].map (fun task => task.id),
        r.get k = some (([(⟨10, 1, 99⟩ : Proposal), ⟨11, 2, 5⟩].filter
          (fun p => p.taskId == k)).map (fun p =>
          ({ toProposal := p, taskTitle := "Logo",
             freelancerUsername := "freelancer" } : EnrichedProposal)))) ∧
      (∀ p ∈ [(⟨10, 1, 99⟩ : Proposal), ⟨11, 2, 5⟩],
        p.taskId ∉ [(⟨1, "Logo"⟩ : Task)].map (fun task => task.id) →
        ∀ k l, r.get k = some l → ∀ e ∈ l, e.toProposal ≠ p) :=
  fetch_lists_eq_filtered sampleCookies sampleApi 200 200 [⟨1, "Logo"⟩]
    [⟨10, 1, 99⟩, ⟨11, 2, 5⟩] (fun id => ⟨id, "Logo"⟩) (fun id => ⟨id, "freelancer"⟩) rfl rfl
    (fun _ _ _ => ⟨⟨200, rfl⟩, ⟨200, rfl⟩⟩)

/-- C3: in every object `fetchReceivedProposals` publishes, every enriched
proposal in the list stored under a key has that key as its `taskId`. -/
theorem published_taskId_eq_key (cookies : Cookies) (api : Api)
    (r : JsObj (List EnrichedProposal))
    (hr : r ∈ publishedOf (fetchReceivedProposals cookies api))
    (k : Nat) (l : List EnrichedProposal) (hk : r.get k = some l)
    (e : EnrichedProposal) (he : e ∈ l) : e.taskId = k := by
  rcases fetch_dichotomy cookies api with ⟨ids, es, hpub, _⟩ | ⟨m, hpub, _⟩
  · rw [hpub, List.mem_singleton] at hr
    subst hr
    rw [groupByTask_get] at hk
    by_cases hmem : k ∈ ids
    · rw [if_pos hmem] at hk
      simp only [Option.some.injEq] at hk
      rw [← hk] at he
      simpa using (List.mem_filter.1 he).2
    · rw [if_neg hmem] at hk
      cases hk
  · rw [hpub] at hr
    cases hr

/-- Witness of C3 on the scenario: the enriched proposal 10 is stored under
key 1 and has `taskId` 1. -/
theorem published_taskId_eq_key_witness :
    JsObj.empty.set 1 [sampleEnriched] ∈
        publishedOf (fetchReceivedProposals sampleCookies sampleApi) ∧
      (JsObj.empty.set 1 [sampleEnriched]).get 1 = some [sampleEnriched] ∧
      sampleEnriched ∈ [sampleEnriched] ∧ sampleEnriched.taskId = 1 :=
  ⟨by decide, by decide, by decide,
    published_taskId_eq_key sampleCookies sampleApi (JsObj.empty.set 1 [sampleEnriched])
      (by decide) 1 [sampleEnriched] (by decide) sampleEnriched (by decide)⟩

/-! ## Selection -/

/-- C4: after `handleSelectFreelancer(t, p1)` and `handleSelectFreelancer(t, p2)`
the selection state reads `p2` at `t` and holds exactly one entry for `t`, the
one for `p2`; selecting the same proposal twice gives the state of selecting it
once. -/
theorem select_overwrites_and_idempotent (st : RPState) (t p1 p2 p : Nat) :
    (handleSelectFreelancer (handleSelectFreelancer st t p1) t p2).selectedProposal.get t
        = some p2 ∧
      (handleSelectFreelancer (handleSelectFreelancer st t p1) t p2).selectedProposal.entries.filter
        (fun e => e.1 == t) = [(t, p2)] ∧
      handleSelectFreelancer (handleSelectFreelancer st t p) t p =
        handleSelectFreelancer st t p := by
  refine ⟨?_, ?_, ?_⟩
  · simp [handleSelectFreelancer, JsObj.get_set]
  · exact setEntry_filter_eq _ t p2 (st.selectedProposal.set t p1).nodup
  · simp [handleSelectFreelancer, JsObj.set_set]

/-- C10: `handleSelectFreelancer(t, p)` changes the selection at `t` only:
every other key reads as before and the entries of the other keys are the
same; `proposals` and `loading` are untouched.  A fetch cycle, whatever the
server answers, leaves `selectedProposal` as it was. -/
theorem select_and_fetch_frames (st : RPState) (t p : Nat) (cookies : Cookies) (api : Api) :
    (∀ k, (handleSelectFreelancer st t p).selectedProposal.get k =
        if k = t then some p else st.selectedProposal.get k) ∧
      (handleSelectFreelancer st t p).selectedProposal.entries.filter (fun e => e.1 != t) =
        st.selectedProposal.entries.filter (fun e => e.1 != t) ∧
      (handleSelectFreelancer st t p).proposals = st.proposals ∧
      (handleSelectFreelancer st t p).loading = st.loading ∧
      (st.run (fetchReceivedProposals cookies api)).selectedProposal = st.selectedProposal := by
  refine ⟨?_, ?_, rfl, rfl, run_selectedProposal _ st⟩
  · intro k
    exact JsObj.get_set st.selectedProposal t p k
  · exact setEntry_filter_ne st.selectedProposal.entries t p

/-! ## Confirmation -/

/-- C5: when the selection state has no entry for `t`,
`handleConfirmSelection(t)` only shows the alert "Please select a proposal
before confirming." and hands no request to axios. -/
theorem confirm_without_selection (cookies : Cookies) (api : Api) (st : RPState) (t : Nat)
    (h : t ∉ st.selectedProposal.keys) :
    handleConfirmSelection cookies api st t = [.alert .selectFirst] ∧
      requestsOf (handleConfirmSelection cookies api st t) = [] := by
  have hget : st.selectedProposal.get t = none := (JsObj.get_eq_none _ t).2 h
  have h1 : handleConfirmSelection cookies api st t = [.alert .selectFirst] := by
    simp [handleConfirmSelection, hget]
  exact ⟨h1, by rw [h1]; rfl⟩

/-- Witness of C5: confirming task 1 in the state on mount. -/
theorem confirm_without_selection_witness :
    1 ∉ RPState.initial.selectedProposal.keys ∧
      handleConfirmSelection sampleCookies sampleApi RPState.initial 1 = [.alert .selectFirst] ∧
      requestsOf (handleConfirmSelection sampleCookies sampleApi RPState.initial 1) = [] :=
  ⟨by decide, confirm_without_selection sampleCookies sampleApi RPState.initial 1 (by decide)⟩

/-- Confirmation after the selection of a proposal whose id is not zero: one
POST to the assignment resource of `(t, p)`; the success alert for `(t, p)`
when the promise fulfils with status 204, the error alert otherwise. -/
theorem confirm_after_select_nonzero (cookies : Cookies) (api : Api) (st : RPState)
    (t p : Nat) (hp : p ≠ 0) :
    requestsOf (handleConfirmSelection cookies api (handleSelectFreelancer st t p) t) =
        [⟨.POST, .assignment t p, cookies.authToken⟩] ∧
      ((∃ d, api.assign t p = .resolved 204 d) →
        alertsOf (handleConfirmSelection cookies api (handleSelectFreelancer st t p) t) =
          [.assigned p t]) ∧
      ((¬ ∃ d, api.assign t p = .resolved 204 d) →
        ∃ m, alertsOf (handleConfirmSelection cookies api (handleSelectFreelancer st t p) t) =
          [.assignError m]) := by
  have hget : (handleSelectFreelancer st t p).selectedProposal.get t = some p := by
    simp [handleSelectFreelancer, JsObj.get_set]
  cases ha : api.assign t p with
  | rejected m =>
    refine ⟨?_, ?_, ?_⟩
    · simp [handleConfirmSelection, hget, truthyId, hp, ha, requestsOf]
    · rintro ⟨d, hd⟩
      cases hd
    · intro _
      exact ⟨m, by simp [handleConfirmSelection, hget, truthyId, hp, ha, alertsOf]⟩
  | resolved status d =>
    by_cases hs : status = 204
    · subst hs
      refine ⟨?_, ?_, ?_⟩
      · simp [handleConfirmSelection, hget, truthyId, hp, ha, requestsOf]
      · intro _
        simp [handleConfirmSelection, hget, truthyId, hp, ha, alertsOf]
      · intro hn
        exact absurd ⟨d, rfl⟩ hn
    · refine ⟨?_, ?_, ?_⟩
      · simp [handleConfirmSelection, hget, truthyId, hp, ha, hs, requestsOf]
      · rintro ⟨d2, hd⟩
        simp only [Answer.resolved.injEq] at hd
        exact absurd hd.1 hs
      · intro _
        exact ⟨"Failed to assign freelancer",
          by simp [handleConfirmSelection, hget, truthyId, hp, ha, hs, alertsOf]⟩

/-- C6, at the proposal id 0: after `handleSelectFreelancer(t, 0)` the
selection state holds `0` for `t`, yet `handleConfirmSelection(t)` shows the
alert "Please select a proposal before confirming." and sends no request,
whatever the server would answer. -/
theorem confirm_after_select_zero (cookies : Cookies) (api : Api) (st : RPState) (t : Nat) :
    (handleSelectFreelancer st t 0).selectedProposal.get t = some 0 ∧
      handleConfirmSelection cookies api (handleSelectFreelancer st t 0) t =
        [.alert .selectFirst] ∧
      requestsOf (handleConfirmSelection cookies api (handleSelectFreelancer st t 0) t) = [] := by
  have hget : (handleSelectFreelancer st t 0).selectedProposal.get t = some 0 := by
    simp [handleSelectFreelancer, JsObj.get_set]
  have h1 : handleConfirmSelection cookies api (handleSelectFreelancer st t 0) t =
      [.alert .selectFirst] := by
    simp [handleConfirmSelection, hget, truthyId]
  exact ⟨hget, h1, by rw [h1]; rfl⟩

/-- The scenario of the specification with status 204: one POST for
`(1, 10)` and the success alert for proposal 10 and task 1. -/
theorem confirm_scenario_204 :
    handleConfirmSelection sampleCookies sampleApi
        (handleSelectFreelancer RPState.initial 1 10) 1 =
      [.request ⟨.POST, .assignment 1 10, some "token"⟩, .alert (.assigned 10 1)] := by
  decide

/-- The scenario of the specification with status 409: one POST for
`(1, 10)`, the console message and the error alert. -/
theorem confirm_scenario_409 :
    handleConfirmSelection sampleCookies conflictApi
        (handleSelectFreelancer RPState.initial 1 10) 1 =
      [.request ⟨.POST, .assignment 1 10, some "token"⟩,
       .consoleError assignErrorLabel "Request failed with status code 409",
       .alert (.assignError "Request failed with status code 409")] := by
  decide

/-! ## Failed cycles -/

theorem failingApi_fails : FetchFails failingApi :=
  Or.inr ⟨200, [⟨1, "Logo"⟩], rfl, Or.inr ⟨200, [⟨10, 1, 99⟩, ⟨11, 2, 5⟩], rfl,
    ⟨10, 1, 99⟩, by decide, by decide, Or.inr ⟨_, rfl⟩⟩⟩

/-- C7: when the task lookup or the user lookup of a proposal that passed the
filter is rejected, `fetchReceivedProposals` never calls `setProposals`, the
`proposals` state stays as it was, and `console.error` is called once. -/
theorem detail_failure_publishes_nothing (cookies : Cookies) (api : Api) (st : RPState)
    (s1 s2 : Nat) (T : List Task) (P : List Proposal)
    (hT : api.postedTasks = .resolved s1 T) (hP : api.proposals = .resolved s2 P)
    (hfail : ∃ p ∈ P, p.taskId ∈ T.map (fun task => task.id) ∧
      ((∃ m, api.task p.taskId = .rejected m) ∨ (∃ m, api.user p.freelancerId = .rejected m))) :
    publishedOf (fetchReceivedProposals cookies api) = [] ∧
      (st.run (fetchReceivedProposals cookies api)).proposals = st.proposals ∧
      (errorsOf (fetchReceivedProposals cookies api)).length = 1 := by
  have hf : FetchFails api := Or.inr ⟨s1, T, hT, Or.inr ⟨s2, P, hP, hfail⟩⟩
  obtain ⟨hpub, m, herr⟩ := fetch_fails_published cookies api hf
  exact ⟨hpub, run_proposals_of_not_published _ st hpub, by rw [herr]; rfl⟩

/-- Witness of C7: the user lookup of proposal 10 is rejected. -/
theorem detail_failure_publishes_nothing_witness :
    publishedOf (fetchReceivedProposals sampleCookies failingApi) = [] ∧
      (priorState.run (fetchReceivedProposals sampleCookies failingApi)).proposals =
        priorState.proposals ∧
      (errorsOf (fetchReceivedProposals sampleCookies failingApi)).length = 1 :=
  detail_failure_publishes_nothing sampleCookies failingApi priorState 200 200 [⟨1, "Logo"⟩]
    [⟨10, 1, 99⟩, ⟨11, 2, 5⟩] rfl rfl
    ⟨⟨10, 1, 99⟩, by decide, by decide, Or.inr ⟨_, rfl⟩⟩

/-- C8 as stated fails: a state that holds a published result for task 1 goes
through a cycle whose user lookup is rejected, and afterwards still exposes
that result, not the empty state. -/
theorem failed_cycle_keeps_prior_result :
    FetchFails failingApi ∧
      priorState.proposals.get 1 = some [sampleEnriched] ∧
      (priorState.run (fetchReceivedProposals sampleCookies failingApi)).proposals.get 1 =
        some [sampleEnriched] ∧
      (priorState.run (fetchReceivedProposals sampleCookies failingApi)).proposals ≠
        JsObj.empty :=
  ⟨Or.inr ⟨200, [⟨1, "Logo"⟩], rfl, Or.inr ⟨200, [⟨10, 1, 99⟩, ⟨11, 2, 5⟩], rfl,
    ⟨10, 1, 99⟩, by decide, by decide, Or.inr ⟨_, rfl⟩⟩⟩, by decide, by decide, by decide⟩

/-- C8 amended: a cycle in which the posted-tasks fetch, the proposals fetch or
a detail fetch is rejected never calls `setProposals`; the `proposals` state
after the cycle is the state before it, and it is empty when the cycle starts
from the state on mount. -/
theorem failed_cycle_leaves_proposals (cookies : Cookies) (api : Api) (st : RPState)
    (h : FetchFails api) :
    publishedOf (fetchReceivedProposals cookies api) = [] ∧
      (st.run (fetchReceivedProposals cookies api)).proposals = st.proposals ∧
      (RPState.initial.run (fetchReceivedProposals cookies api)).proposals = JsObj.empty := by
  have hpub := (fetch_fails_published cookies api h).1
  exact ⟨hpub, run_proposals_of_not_published _ st hpub,
    run_proposals_of_not_published _ RPState.initial hpub⟩

/-- Witness of C8 amended: the cycle with the rejected user lookup, from the
state that holds a result. -/
theorem failed_cycle_leaves_proposals_witness :
    FetchFails failingApi ∧
      publishedOf (fetchReceivedProposals sampleCookies failingApi) = [] ∧
      (priorState.run (fetchReceivedProposals sampleCookies failingApi)).proposals =
        priorState.proposals ∧
      (RPState.initial.run (fetchReceivedProposals sampleCookies failingApi)).proposals =
        JsObj.empty :=
  ⟨failingApi_fails,
    failed_cycle_leaves_proposals sampleCookies failingApi priorState failingApi_fails⟩

/-! ## Missing token -/

/-- Without the `authToken` cookie `fetchTasks` sets the error
"Unauthorized: Auth token is missing" and hands no request to axios. -/
theorem fetchTasks_unauthorized (cookies : Cookies) (api : Api)
    (h : cookies.authToken = none) :
    fetchTasks cookies api =
        [.setError "Unauthorized: Auth token is missing", .setLoading false] ∧
      tlRequestsOf (fetchTasks cookies api) = [] := by
  have h1 : fetchTasks cookies api =
      [.setError "Unauthorized: Auth token is missing", .setLoading false] := by
    simp [fetchTasks, h, truthyString]
  exact ⟨h1, by rw [h1]; rfl⟩

/-- C9, at the absent `authToken` cookie: `fetchReceivedProposals` still sends
the posted-tasks request, `handleConfirmSelection` after a selection still
sends the assignment POST, and `handleSubmit` with a valid deadline still sends
the task POST, each with an undefined `Authorization` header. -/
theorem no_token_requests_still_sent (api : Api) (st : RPState) (t p : Nat)
    (form : FormState) :
    (requestsOf (fetchReceivedProposals noTokenCookies api)).head? =
        some ⟨.GET, .tasksPosted, none⟩ ∧
      requestsOf (handleConfirmSelection noTokenCookies api
          (handleSelectFreelancer st t (p + 1)) t) =
        [⟨.POST, .assignment t (p + 1), none⟩] ∧
      (tfRequestsOf (handleSubmit noTokenCookies (fun d => some d) api form)).map
          (fun r => (r.method, r.authorization)) = [(.POST, none)] := by
  refine ⟨?_, ?_, ?_⟩
  · simp [fetchReceivedProposals, fetchBody, requestsOf, noTokenCookies]
  · exact (confirm_after_select_nonzero noTokenCookies api st t (p + 1) (Nat.succ_ne_zero p)).1
  · cases hc : api.createTask with
    | rejected m => simp [handleSubmit, hc, tfRequestsOf, noTokenCookies]
    | resolved status d =>
      by_cases hs : status = 200 ∨ status = 201
      · simp [handleSubmit, hc, hs, tfRequestsOf, noTokenCookies]
      · simp [handleSubmit, hc, hs, tfRequestsOf, noTokenCookies]

end FreelancePlatform
